import Mathlib

/-!
Verification development for the Convolutional DRAW training script
(src/draw-cifar10.py).  Tensors are shallowly embedded as a shape together
with a total data function over multi-indices, with real-valued entries.
The TensorFlow graph operations used by the script (strided SAME-padded
convolution, depth-to-space, channel split/concat, axis reductions) are
translated directly from their library semantics, and the model
functions (sampleQ, read, write, the unroll loop, the loss terms and the
gradient handling) are translated line by line from the source.
-/

noncomputable section

/-- Dense tensor: a shape together with a total data function on
multi-indices (indices outside the shape are irrelevant padding). -/
structure Tensor where
  shape : List ℕ
  data : List ℕ → ℝ

/-- Size of dimension i (0 when the rank is exceeded). -/
def Tensor.dim (t : Tensor) (i : ℕ) : ℕ := t.shape.getD i 0

/-- Entry of a rank-4 tensor at (b, i, j, k). -/
def Tensor.get4 (t : Tensor) (b i j k : ℕ) : ℝ := t.data [b, i, j, k]

/-- All-zero tensor of the given shape (tf.zeros). -/
def Tensor.zeros (s : List ℕ) : Tensor := ⟨s, fun _ => 0⟩

/-- Pointwise binary operation; the result carries the shape of the first operand. -/
def Tensor.map2 (f : ℝ → ℝ → ℝ) (a b : Tensor) : Tensor :=
  ⟨a.shape, fun ix => f (a.data ix) (b.data ix)⟩

/-- Pointwise unary operation. -/
def Tensor.map (f : ℝ → ℝ) (t : Tensor) : Tensor :=
  ⟨t.shape, fun ix => f (t.data ix)⟩

/-- Elementwise addition. -/
def Tensor.add (a b : Tensor) : Tensor := Tensor.map2 (fun u v => u + v) a b

/-- Elementwise subtraction. -/
def Tensor.sub (a b : Tensor) : Tensor := Tensor.map2 (fun u v => u - v) a b

/-- Elementwise multiplication. -/
def Tensor.mul (a b : Tensor) : Tensor := Tensor.map2 (fun u v => u * v) a b

/-- Multiplication by a scalar constant. -/
def Tensor.scale (a : ℝ) (t : Tensor) : Tensor := ⟨t.shape, fun ix => a * t.data ix⟩

/-- Addition of a scalar constant. -/
def Tensor.addScalar (a : ℝ) (t : Tensor) : Tensor := ⟨t.shape, fun ix => t.data ix + a⟩

/-- tf.split(r, 2, 3): split a rank-4 tensor into two halves along the
channel axis (axis 3). -/
def splitHalf (r : Tensor) : Tensor × Tensor :=
  (⟨[r.dim 0, r.dim 1, r.dim 2, r.dim 3 / 2],
    fun ix => r.get4 (ix.getD 0 0) (ix.getD 1 0) (ix.getD 2 0) (ix.getD 3 0)⟩,
   ⟨[r.dim 0, r.dim 1, r.dim 2, r.dim 3 / 2],
    fun ix => r.get4 (ix.getD 0 0) (ix.getD 1 0) (ix.getD 2 0) (r.dim 3 / 2 + ix.getD 3 0)⟩)

/-- tf.concat([a, b], 3): concatenation along the channel axis. -/
def concat3 (a b : Tensor) : Tensor :=
  ⟨[a.dim 0, a.dim 1, a.dim 2, a.dim 3 + b.dim 3],
   fun ix =>
     if ix.getD 3 0 < a.dim 3 then
       a.get4 (ix.getD 0 0) (ix.getD 1 0) (ix.getD 2 0) (ix.getD 3 0)
     else
       b.get4 (ix.getD 0 0) (ix.getD 1 0) (ix.getD 2 0) (ix.getD 3 0 - a.dim 3)⟩

/-- Zero-padded read of a rank-4 tensor at possibly out-of-range spatial
coordinates, as done by SAME-padded convolution. -/
def Tensor.readPad (x : Tensor) (bi : ℕ) (ii jj : ℤ) (ci : ℕ) : ℝ :=
  if 0 ≤ ii ∧ ii < (x.dim 1 : ℤ) ∧ 0 ≤ jj ∧ jj < (x.dim 2 : ℤ) then
    x.get4 bi ii.toNat jj.toNat ci
  else 0

/-- Output spatial size of a SAME-padded convolution with the given stride:
ceil(inDim / stride). -/
def convOutDim (inDim stride : ℕ) : ℕ := (inDim + stride - 1) / stride

/-- Leading padding of a SAME-padded convolution (tf.nn.conv2d). -/
def padBefore (inDim outDim fd stride : ℕ) : ℕ := ((outDim - 1) * stride + fd - inDim) / 2

/-- Learned parameters of one convolutional projection: kernel W indexed by
(di, dj, c_in, filter) and bias b indexed by filter. -/
structure ConvParams where
  W : ℕ → ℕ → ℕ → ℕ → ℝ
  b : ℕ → ℝ

/-- conv(x, n_filters, filter_dim, scale): strided SAME-padded convolution
followed by bias add, translated from the conv of the script together with the
tf.nn.conv2d SAME-padding semantics. -/
def conv (x : Tensor) (p : ConvParams) (n_filters filter_dim stride : ℕ) : Tensor :=
  ⟨[x.dim 0, convOutDim (x.dim 1) stride, convOutDim (x.dim 2) stride, n_filters],
   fun ix =>
     (∑ di ∈ Finset.range filter_dim, ∑ dj ∈ Finset.range filter_dim,
       ∑ ci ∈ Finset.range (x.dim 3),
         x.readPad (ix.getD 0 0)
           ((ix.getD 1 0 * stride + di : ℕ) -
             (padBefore (x.dim 1) (convOutDim (x.dim 1) stride) filter_dim stride : ℤ))
           ((ix.getD 2 0 * stride + dj : ℕ) -
             (padBefore (x.dim 2) (convOutDim (x.dim 2) stride) filter_dim stride : ℤ))
           ci * p.W di dj ci (ix.getD 3 0))
     + p.b (ix.getD 3 0)⟩

/-- tf.depth_to_space with block size 2: trades channel depth for a 2x
spatial upsample. -/
def depthToSpace2 (x : Tensor) : Tensor :=
  ⟨[x.dim 0, 2 * x.dim 1, 2 * x.dim 2, x.dim 3 / 4],
   fun ix =>
     x.get4 (ix.getD 0 0) (ix.getD 1 0 / 2) (ix.getD 2 0 / 2)
       (((ix.getD 1 0 % 2) * 2 + ix.getD 2 0 % 2) * (x.dim 3 / 4) + ix.getD 3 0)⟩

/-- tf.reduce_sum(x, 1) on a rank-4 tensor: sums out axis 1 (the spatial
height axis), leaving a rank-3 tensor. -/
def reduceSumAxis1 (x : Tensor) : Tensor :=
  ⟨[x.dim 0, x.dim 2, x.dim 3],
   fun ix => ∑ i ∈ Finset.range (x.dim 1), x.get4 (ix.getD 0 0) i (ix.getD 1 0) (ix.getD 2 0)⟩

/-- tf.reduce_sum(x, [1,2,3]) on a rank-4 tensor: per-example sum over the
two spatial axes and the channel axis. -/
def reduceSumAxes123 (x : Tensor) : Tensor :=
  ⟨[x.dim 0],
   fun ix =>
     ∑ i ∈ Finset.range (x.dim 1), ∑ j ∈ Finset.range (x.dim 2),
       ∑ k ∈ Finset.range (x.dim 3), x.get4 (ix.getD 0 0) i j k⟩

/-- tf.reduce_mean(x, 0) on a rank-1 tensor, yielding a scalar. -/
def reduceMeanAxis0 (x : Tensor) : ℝ :=
  (∑ b ∈ Finset.range (x.dim 0), x.data [b]) / (x.dim 0 : ℝ)

/-- All in-range multi-indices of a shape, in lexicographic order. -/
def allIndices : List ℕ → List (List ℕ)
  | [] => [[]]
  | d :: ds => (List.range d).flatMap fun i => (allIndices ds).map fun ix => i :: ix

/-- tf.reduce_mean(x) with no axis argument: the mean over every element. -/
def reduceMeanAll (t : Tensor) : ℝ :=
  ((allIndices t.shape).map t.data).sum / (t.shape.prod : ℝ)

/-- tf.add_n: elementwise sum of a list of tensors. -/
def addN : List Tensor → Tensor
  | [] => Tensor.zeros []
  | t :: ts => ts.foldl Tensor.add t

/-- Model-size constants of the script (its MODEL PARAMETERS block):
image width A, height B, channel counts, sequence length T, batch size,
learning rate and the module-level numerical epsilon. -/
structure DrawConfig where
  A : ℕ
  B : ℕ
  n_chan_x : ℕ
  n_chan_z : ℕ
  n_chan_hd : ℕ
  n_chan_he : ℕ
  T : ℕ
  batch_size : ℕ
  learning_rate : ℝ
  eps : ℝ

/-- n_chan_r = n_chan_x * 2: the canvas carries mean plus log-stdv. -/
def n_chan_r (cfg : DrawConfig) : ℕ := cfg.n_chan_x * 2

/-- The constants as the script fixes them. -/
def defaultConfig : DrawConfig := ⟨32, 32, 3, 12, 320, 320, 32, 32, 1e-4, 1e-6⟩

/-- Learned parameters of the four convolutional roles created inside the
variable scopes read, write, mu and sigma. -/
structure DrawParams where
  readP : ConvParams
  writeP : ConvParams
  muP : ConvParams
  sigmaP : ConvParams

/-- The two ConvLSTM cell instances (convlstm.py, outside src/), treated as
black-box stateful transforms as the spec prescribes: a step function from
input and previous state to output and new state, plus a zero initial
state. -/
structure Cells (Se Sd : Type) where
  lstm_enc : Tensor → Se → Tensor × Se
  lstm_dec : Tensor → Sd → Tensor × Sd
  encZero : Se
  decZero : Sd

/-- sampleQ(h_enc): mu and logsigma are conv projections of the encoder
output, sigma = exp(logsigma), and the sample is mu + sigma * e with the
single module-level noise tensor e of the script. -/
def sampleQ (cfg : DrawConfig) (p : DrawParams) (e h_enc : Tensor) :
    Tensor × Tensor × Tensor × Tensor :=
  let mu := conv h_enc p.muP cfg.n_chan_z 5 1
  let logsigma := conv h_enc p.sigmaP cfg.n_chan_z 5 1
  let sigma := Tensor.map Real.exp logsigma
  (mu.add (sigma.mul e), mu, logsigma, sigma)

/-- read(r): conv(r, n_chan_r, filter_dim=3, scale=2), halving the spatial
resolution of the canvas residual. -/
def read (cfg : DrawConfig) (p : DrawParams) (r : Tensor) : Tensor :=
  conv r p.readP (n_chan_r cfg) 3 2

/-- write(h_dec): conv(h_dec, n_chan_r*4) followed by depth_to_space with
block size 2. -/
def write (cfg : DrawConfig) (p : DrawParams) (h_dec : Tensor) : Tensor :=
  depthToSpace2 (conv h_dec p.writeP (n_chan_r cfg * 4) 5 1)

/-- Every tensor named by the body of the unroll loop at one timestep,
including the noise tensor consumed when forming z. -/
structure StepData (Se Sd : Type) where
  r_prev : Tensor
  m : Tensor
  s : Tensor
  epsilon : Tensor
  h_enc : Tensor
  enc_state : Se
  z : Tensor
  mu : Tensor
  logsigma : Tensor
  sigma : Tensor
  noise : Tensor
  r_prev_down : Tensor
  h_dec : Tensor
  dec_state : Sd
  canvas : Tensor

/-- One iteration of the unroll loop (lines 124-135 of the script), as a
function of the incoming canvas and recurrent states. -/
def stepBody {Se Sd : Type} (cfg : DrawConfig) (p : DrawParams) (cells : Cells Se Sd)
    (x e r_prevIn : Tensor) (encSt : Se) (decSt : Sd) : StepData Se Sd :=
  let m := (splitHalf r_prevIn).1
  let s := (splitHalf r_prevIn).2
  let epsilon := x.sub m
  let encOut := cells.lstm_enc (concat3 x epsilon) encSt
  let sq := sampleQ cfg p e encOut.1
  let r_prev_down := read cfg p r_prevIn
  let decOut := cells.lstm_dec (concat3 sq.1 r_prev_down) decSt
  ⟨r_prevIn, m, s, epsilon, encOut.1, encOut.2,
   sq.1, sq.2.1, sq.2.2.1, sq.2.2.2, e,
   r_prev_down, decOut.1, decOut.2,
   r_prevIn.add (write cfg p decOut.1)⟩

/-- The unrolled graph: timestep t of the loop, threading canvas and
recurrent states; at t = 0 the incoming canvas residual is all-zero and the
recurrent states are the zero states of the cells. -/
def unroll {Se Sd : Type} (cfg : DrawConfig) (p : DrawParams) (cells : Cells Se Sd)
    (x e : Tensor) : ℕ → StepData Se Sd
  | 0 =>
    stepBody cfg p cells x e
      (Tensor.zeros [cfg.batch_size, cfg.A, cfg.B, n_chan_r cfg]) cells.encZero cells.decZero
  | Nat.succ t =>
    stepBody cfg p cells x e (unroll cfg p cells x e t).canvas
      (unroll cfg p cells x e t).enc_state (unroll cfg p cells x e t).dec_state

/-- rs[-1]: the canvas produced by the last timestep. -/
def canvasFinal {Se Sd : Type} (cfg : DrawConfig) (p : DrawParams) (cells : Cells Se Sd)
    (x e : Tensor) : Tensor :=
  (unroll cfg p cells x e (cfg.T - 1)).canvas

/-- log_normal2(x, mean, log_var, eps): the analytic Gaussian log-density
used by the reconstruction term, with its locally defaulted eps. -/
def log_normal2 (xv mean log_var epsv : ℝ) : ℝ :=
  -0.5 * Real.log (2 * Real.pi) - log_var / 2 - (xv - mean) ^ 2 / (2 * Real.exp log_var + epsv)

/-- Elementwise -log_normal2(x, m, s) with the local default eps = 1e-5. -/
def negLogNormalT (x m s : Tensor) : Tensor :=
  ⟨x.shape, fun ix => -(log_normal2 (x.data ix) (m.data ix) (s.data ix) 1e-5)⟩

/-- Lx: split the final canvas into (m, s), take -log_normal2(x, m, s), sum
over axes [1,2,3], then take the mean over axis 0.  The DrawConfig argument
mirrors the visibility of the module-level constants; note the module-level
eps plays no part. -/
def Lx (cfg : DrawConfig) (x canvasLast : Tensor) : ℝ :=
  reduceMeanAxis0 (reduceSumAxes123 (negLogNormalT x (splitHalf canvasLast).1 (splitHalf canvasLast).2))

/-- Lx of the unrolled model, with m and s taken from rs[-1]. -/
def LxOf {Se Sd : Type} (cfg : DrawConfig) (p : DrawParams) (cells : Cells Se Sd)
    (x e : Tensor) : ℝ :=
  Lx cfg x (canvasFinal cfg p cells x e)

/-- kl_terms[t] = 0.5 * reduce_sum(mu^2 + sigma^2 - 2*logsigma, 1) - 0.5,
exactly as the script computes it (the reduction is over axis 1). -/
def kl_term (mu sigma logsigma : Tensor) : Tensor :=
  Tensor.addScalar (-0.5)
    (Tensor.scale 0.5
      (reduceSumAxis1 (((mu.mul mu).add (sigma.mul sigma)).sub (Tensor.scale 2 logsigma))))

/-- Lz = reduce_mean(add_n(kl_terms)): the timestep kl tensors are summed
elementwise and then averaged over every remaining element. -/
def LzOf {Se Sd : Type} (cfg : DrawConfig) (p : DrawParams) (cells : Cells Se Sd)
    (x e : Tensor) : ℝ :=
  reduceMeanAll (addN ((List.range cfg.T).map fun t =>
    kl_term (unroll cfg p cells x e t).mu (unroll cfg p cells x e t).sigma
      (unroll cfg p cells x e t).logsigma))

/-- cost = Lx + Lz. -/
def costOf {Se Sd : Type} (cfg : DrawConfig) (p : DrawParams) (cells : Cells Se Sd)
    (x e : Tensor) : ℝ :=
  LxOf cfg p cells x e + LzOf cfg p cells x e

/-- Replace only the module-level eps constant of a configuration. -/
def setEps (cfg : DrawConfig) (v : ℝ) : DrawConfig :=
  ⟨cfg.A, cfg.B, cfg.n_chan_x, cfg.n_chan_z, cfg.n_chan_hd, cfg.n_chan_he,
   cfg.T, cfg.batch_size, cfg.learning_rate, v⟩

/-- Euclidean norm of a gradient, flattened to a list of entries. -/
def l2norm (g : List ℝ) : ℝ := Real.sqrt ((g.map fun v => v ^ 2).sum)

/-- tf.clip_by_norm(g, c): rescale g to norm c when its norm exceeds c. -/
def clip_by_norm (g : List ℝ) (c : ℝ) : List ℝ :=
  if l2norm g ≤ c then g else g.map fun v => v * (c / l2norm g)

/-- The gradient post-processing loop of the script: gradients are paired
with a variable (name and current value); a present gradient is replaced by
its norm-5 clipping, an absent gradient is kept as-is and a warning naming
the variable is recorded. -/
def processGrads : List (Option (List ℝ) × String × List ℝ) →
    List (Option (List ℝ) × String × List ℝ) × List String
  | [] => ([], [])
  | (some g, v) :: rest =>
    ((some (clip_by_norm g 5), v) :: (processGrads rest).1, (processGrads rest).2)
  | (none, v) :: rest =>
    ((none, v) :: (processGrads rest).1,
     ("WARNING NO GRAD FOR VAR: " ++ v.1) :: (processGrads rest).2)

/-- Modelled from the spec: tf.train.AdamOptimizer.apply_gradients (the
optimizer internals are a supplied library, not part of src/) applies the
update rule only to variables whose gradient is present and leaves a
variable untouched when its gradient is None, without aborting.  The Adam
update rule itself is abstracted as the function upd from current value and
clipped gradient to new value. -/
def apply_gradients (upd : List ℝ → List ℝ → List ℝ) :
    List (Option (List ℝ) × String × List ℝ) → List (List ℝ) :=
  List.map fun gv =>
    match gv.1 with
    | some g => upd gv.2.2 g
    | none => gv.2.2

/-- The six named variable-scope roles whose parameters the unroll reuses. -/
inductive Role
  | encoder
  | mu
  | sigma
  | read
  | decoder
  | write
deriving DecidableEq

/-- The order in which one loop iteration enters the six scopes. -/
def roleOrder : List Role := [Role.encoder, Role.mu, Role.sigma, Role.read, Role.decoder, Role.write]

/-- The process-wide variable store: which parameter set each role owns. -/
structure Store (P : Type) where
  encoder : Option P
  mu : Option P
  sigma : Option P
  read : Option P
  decoder : Option P
  write : Option P

/-- The parameter set a role currently owns. -/
def Store.get {P : Type} (st : Store P) : Role → Option P
  | Role.encoder => st.encoder
  | Role.mu => st.mu
  | Role.sigma => st.sigma
  | Role.read => st.read
  | Role.decoder => st.decoder
  | Role.write => st.write

/-- Replace the parameter set a role owns. -/
def Store.set {P : Type} (st : Store P) (r : Role) (v : Option P) : Store P :=
  match r with
  | Role.encoder => ⟨v, st.mu, st.sigma, st.read, st.decoder, st.write⟩
  | Role.mu => ⟨st.encoder, v, st.sigma, st.read, st.decoder, st.write⟩
  | Role.sigma => ⟨st.encoder, st.mu, v, st.read, st.decoder, st.write⟩
  | Role.read => ⟨st.encoder, st.mu, st.sigma, v, st.decoder, st.write⟩
  | Role.decoder => ⟨st.encoder, st.mu, st.sigma, st.read, v, st.write⟩
  | Role.write => ⟨st.encoder, st.mu, st.sigma, st.read, st.decoder, v⟩

/-- The store before any scope has been entered. -/
def emptyStore (P : Type) : Store P := ⟨none, none, none, none, none, none⟩

/-- The store in which every role owns the set g r. -/
def fullStore {P : Type} (g : Role → P) : Store P :=
  ⟨some (g Role.encoder), some (g Role.mu), some (g Role.sigma),
   some (g Role.read), some (g Role.decoder), some (g Role.write)⟩

/-- Modelled from the spec: tf.get_variable inside variable_scope(name,
reuse=DO_SHARE) (library semantics, not part of src/): with reuse unset a
fresh parameter set is created and an existing one is an error; with reuse
set the existing parameter set is returned and a missing one is an error. -/
def getVariable {P : Type} (reuse : Bool) (fresh : P) (r : Role) (st : Store P) :
    Option (P × Store P) :=
  match st.get r, reuse with
  | some p, true => some (p, st)
  | some _, false => none
  | none, true => none
  | none, false => some (fresh, st.set r (some fresh))

/-- Enter the given scopes in order, recording the parameter set each one
resolved to. -/
def runRoles {P : Type} : List Role → (Role → P) → Bool → Store P →
    Option (List (Role × P) × Store P)
  | [], _, _, st => some ([], st)
  | r :: rest, fresh, reuse, st =>
    match getVariable reuse (fresh r) r st with
    | none => none
    | some (p, st1) =>
      match runRoles rest fresh reuse st1 with
      | none => none
      | some (l, st2) => some ((r, p) :: l, st2)

/-- Run n loop iterations starting at timestep t0: each iteration enters the
six scopes with the current DO_SHARE flag and then sets DO_SHARE to true
(line 135 of the script).  fresh t r is the parameter set that would be
newly created for role r at timestep t. -/
def runSteps {P : Type} (fresh : ℕ → Role → P) : Bool → Store P → ℕ → ℕ →
    Option (List (List (Role × P)) × Store P)
  | _, st, _, 0 => some ([], st)
  | doShare, st, t0, Nat.succ n =>
    match runRoles roleOrder (fresh t0) doShare st with
    | none => none
    | some (used, st1) =>
      match runSteps fresh true st1 (t0 + 1) n with
      | none => none
      | some (rest, st2) => some (used :: rest, st2)

/-- The whole unroll as the script runs it: T iterations from an empty
store with DO_SHARE initially unset (None). -/
def runUnroll {P : Type} (fresh : ℕ → Role → P) (T : ℕ) :
    Option (List (List (Role × P)) × Store P) :=
  runSteps fresh false (emptyStore P) 0 T

/-- Convolution parameters that are identically zero (the zero
initialization of the end-to-end scenario). -/
def zeroConvParams : ConvParams := ⟨fun _ _ _ _ => 0, fun _ => 0⟩

/-- All four conv roles zero-initialized. -/
def zeroDrawParams : DrawParams := ⟨zeroConvParams, zeroConvParams, zeroConvParams, zeroConvParams⟩

/-- The end-to-end scenario configuration: T=1, batch_size=1, A=B=4, one
image channel, one latent channel. -/
def smallCfg : DrawConfig := ⟨4, 4, 1, 1, 4, 3, 1, 1, 1e-4, 1e-6⟩

/-- The all-zero input image of the scenario. -/
def x0 : Tensor := Tensor.zeros [1, 4, 4, 1]

/-- A zero noise draw for the scenario. -/
def e0 : Tensor := Tensor.zeros [1, 2, 2, 1]

/-- Modelled from the spec: the ConvLSTM cells (convlstm.py, outside src/)
under zero-initialized parameters produce all-zero outputs of shape
(batch, A/2, B/2, hidden channels); the recurrent state is irrelevant and
taken to be Unit. -/
def zCells : Cells Unit Unit :=
  ⟨fun _ _ => (Tensor.zeros [1, 2, 2, 3], ()), fun _ _ => (Tensor.zeros [1, 2, 2, 4], ()), (), ()⟩

/-- Entering the six scopes with reuse unset on the empty store creates one
parameter set per role and uses exactly the fresh sets. -/
lemma runRoles_create {P : Type} (f : Role → P) :
    runRoles roleOrder f false (emptyStore P) =
      some (roleOrder.map fun r => (r, f r), fullStore f) := rfl

/-- Entering the six scopes with reuse set on a full store returns the
stored sets and leaves the store untouched, whatever fresh sets are offered. -/
lemma runRoles_reuse {P : Type} (f g : Role → P) :
    runRoles roleOrder f true (fullStore g) =
      some (roleOrder.map fun r => (r, g r), fullStore g) := rfl

/-- Iterating with DO_SHARE set on a full store always resolves every role
to its stored parameter set and never changes the store. -/
lemma runSteps_reuse {P : Type} (fresh : ℕ → Role → P) (g : Role → P) :
    ∀ (n t0 : ℕ),
      runSteps fresh true (fullStore g) t0 n =
        some (List.replicate n (roleOrder.map fun r => (r, g r)), fullStore g)
  | 0, _ => rfl
  | Nat.succ n, t0 => by
    simp only [runSteps, runRoles_reuse, runSteps_reuse fresh g n (t0 + 1), List.replicate]

/-- C2: parameter sharing.  Running the T-step unroll over the six named
roles with the DO_SHARE discipline of the script succeeds, every timestep
resolves each role to exactly the parameter set that the first timestep
created (fresh 0 r), and the final store owns exactly one parameter set per
role regardless of T. -/
theorem claim_C2_parameter_sharing {P : Type} (fresh : ℕ → Role → P) (T : ℕ) (h : 1 ≤ T) :
    runUnroll fresh T =
      some (List.replicate T (roleOrder.map fun r => (r, fresh 0 r)), fullStore (fresh 0)) := by
  obtain ⟨n, rfl⟩ : ∃ n, T = n + 1 := ⟨T - 1, (Nat.succ_pred_eq_of_pos h).symm⟩
  unfold runUnroll
  simp only [runSteps, runRoles_create, runSteps_reuse fresh (fresh 0) n 1, List.replicate]

/-- Witness for C2 at T = 3 with distinguishable per-timestep fresh sets. -/
theorem claim_C2_witness :
    runUnroll (fun t (_ : Role) => t) 3 =
      some (List.replicate 3 (roleOrder.map fun r => (r, 0)), fullStore (fun _ => 0)) :=
  claim_C2_parameter_sharing (fun t _ => t) 3 (by norm_num)

/-- C1: the unroll recurrence.  At every timestep t the loop takes r_prev
to be the all-zero canvas residual at t = 0 and the previous canvas
otherwise, splits it into mean/log-scale halves, forms epsilon = x - m,
feeds concat(x, epsilon) to the encoder cell, samples (z, mu, logsigma,
sigma) from the encoder output, feeds concat(z, read(r_prev)) to the
decoder cell, and sets canvas[t] = r_prev + write(h_dec). -/
theorem claim_C1_unroll_recurrence {Se Sd : Type} (cfg : DrawConfig) (p : DrawParams)
    (cells : Cells Se Sd) (x e : Tensor) (t : ℕ) :
    (unroll cfg p cells x e t).r_prev =
      (if t = 0 then Tensor.zeros [cfg.batch_size, cfg.A, cfg.B, n_chan_r cfg]
       else (unroll cfg p cells x e (t - 1)).canvas)
    ∧ (unroll cfg p cells x e t).m = (splitHalf (unroll cfg p cells x e t).r_prev).1
    ∧ (unroll cfg p cells x e t).s = (splitHalf (unroll cfg p cells x e t).r_prev).2
    ∧ (unroll cfg p cells x e t).epsilon = x.sub (unroll cfg p cells x e t).m
    ∧ ((unroll cfg p cells x e t).h_enc, (unroll cfg p cells x e t).enc_state) =
        cells.lstm_enc (concat3 x (unroll cfg p cells x e t).epsilon)
          (if t = 0 then cells.encZero else (unroll cfg p cells x e (t - 1)).enc_state)
    ∧ ((unroll cfg p cells x e t).z, (unroll cfg p cells x e t).mu,
        (unroll cfg p cells x e t).logsigma, (unroll cfg p cells x e t).sigma) =
        sampleQ cfg p e (unroll cfg p cells x e t).h_enc
    ∧ ((unroll cfg p cells x e t).h_dec, (unroll cfg p cells x e t).dec_state) =
        cells.lstm_dec
          (concat3 (unroll cfg p cells x e t).z (read cfg p (unroll cfg p cells x e t).r_prev))
          (if t = 0 then cells.decZero else (unroll cfg p cells x e (t - 1)).dec_state)
    ∧ (unroll cfg p cells x e t).canvas =
        ((unroll cfg p cells x e t).r_prev).add (write cfg p (unroll cfg p cells x e t).h_dec) := by
  cases t with
  | zero => exact ⟨rfl, rfl, rfl, rfl, rfl, rfl, rfl, rfl⟩
  | succ n => exact ⟨rfl, rfl, rfl, rfl, rfl, rfl, rfl, rfl⟩

/-- C5: the noise tensor consumed when forming z is the single module-level
tensor e at every timestep of a forward pass (one tf.random_normal node,
drawn once per run), and z = mu + sigma * noise at each step. -/
theorem claim_C5_shared_noise {Se Sd : Type} (cfg : DrawConfig) (p : DrawParams)
    (cells : Cells Se Sd) (x e : Tensor) (t1 t2 : ℕ) :
    (unroll cfg p cells x e t1).noise = (unroll cfg p cells x e t2).noise
    ∧ (unroll cfg p cells x e t1).z =
        ((unroll cfg p cells x e t1).mu).add
          (((unroll cfg p cells x e t1).sigma).mul ((unroll cfg p cells x e t1).noise)) := by
  constructor
  · cases t1 <;> cases t2 <;> rfl
  · cases t1 <;> rfl

/-- C7: sampler determinism under fixed noise.  With the same h_enc and
parameters, (mu, logsigma, sigma) do not depend on the injected noise at
all, and with the same noise the whole quadruple (z, mu, logsigma, sigma)
is identical. -/
theorem claim_C7_sampler_determinism (cfg : DrawConfig) (p : DrawParams) (h_enc e1 e2 : Tensor) :
    (sampleQ cfg p e1 h_enc).2 = (sampleQ cfg p e2 h_enc).2
    ∧ (e1 = e2 → sampleQ cfg p e1 h_enc = sampleQ cfg p e2 h_enc) :=
  ⟨rfl, fun h => by rw [h]⟩

/-- Witness for C7 at a concrete encoder output and noise tensor. -/
theorem claim_C7_witness :
    (sampleQ smallCfg zeroDrawParams e0 x0).2 = (sampleQ smallCfg zeroDrawParams e0 x0).2
    ∧ sampleQ smallCfg zeroDrawParams e0 x0 = sampleQ smallCfg zeroDrawParams e0 x0 :=
  ⟨(claim_C7_sampler_determinism smallCfg zeroDrawParams x0 e0 e0).1,
   (claim_C7_sampler_determinism smallCfg zeroDrawParams x0 e0 e0).2 rfl⟩

/-- Replacing eps changes no other configuration field. -/
lemma setEps_T (cfg : DrawConfig) (v : ℝ) : (setEps cfg v).T = cfg.T := rfl

/-- The unrolled graph never consults the module-level eps constant. -/
lemma unroll_setEps {Se Sd : Type} (cfg : DrawConfig) (v : ℝ) (p : DrawParams)
    (cells : Cells Se Sd) (x e : Tensor) :
    ∀ t, unroll (setEps cfg v) p cells x e t = unroll cfg p cells x e t := by
  intro t
  induction t with
  | zero => rfl
  | succ n ih =>
    simp only [unroll]
    rw [ih]
    rfl

/-- Lx never consults the module-level eps constant. -/
lemma LxOf_setEps {Se Sd : Type} (cfg : DrawConfig) (v : ℝ) (p : DrawParams)
    (cells : Cells Se Sd) (x e : Tensor) :
    LxOf (setEps cfg v) p cells x e = LxOf cfg p cells x e := by
  unfold LxOf canvasFinal
  rw [setEps_T, unroll_setEps]
  rfl

/-- Lz never consults the module-level eps constant. -/
lemma LzOf_setEps {Se Sd : Type} (cfg : DrawConfig) (v : ℝ) (p : DrawParams)
    (cells : Cells Se Sd) (x e : Tensor) :
    LzOf (setEps cfg v) p cells x e = LzOf cfg p cells x e := by
  unfold LzOf
  simp only [setEps_T, unroll_setEps]

/-- C10: the module-level eps constant (line 37, 1e-6) appears in no loss
computation: Lx, Lz and cost are unchanged under any replacement of it,
because log_normal2 is called with its own locally-defaulted 1e-5. -/
theorem claim_C10_eps_independence {Se Sd : Type} (cfg : DrawConfig) (p : DrawParams)
    (cells : Cells Se Sd) (x e : Tensor) (v1 v2 : ℝ) :
    LxOf (setEps cfg v1) p cells x e = LxOf (setEps cfg v2) p cells x e
    ∧ LzOf (setEps cfg v1) p cells x e = LzOf (setEps cfg v2) p cells x e
    ∧ costOf (setEps cfg v1) p cells x e = costOf (setEps cfg v2) p cells x e := by
  refine ⟨?_, ?_, ?_⟩
  · rw [LxOf_setEps, LxOf_setEps]
  · rw [LzOf_setEps, LzOf_setEps]
  · unfold costOf
    rw [LxOf_setEps, LxOf_setEps, LzOf_setEps, LzOf_setEps]

/-- Squared entries scale quadratically under a scalar rescale. -/
lemma sum_map_sq_mul (g : List ℝ) (a : ℝ) :
    ((g.map fun v => v * a).map fun v => v ^ 2).sum = a ^ 2 * (g.map fun v => v ^ 2).sum := by
  induction g with
  | nil => simp
  | cons hd tl ih =>
    simp only [List.map_cons, List.sum_cons]
    rw [ih]
    ring

/-- The Euclidean norm scales by the absolute value of a scalar rescale. -/
lemma l2norm_map_mul (g : List ℝ) (a : ℝ) :
    l2norm (g.map fun v => v * a) = |a| * l2norm g := by
  unfold l2norm
  rw [sum_map_sq_mul, Real.sqrt_mul (sq_nonneg a), Real.sqrt_sq_eq_abs]

/-- Clipping bounds the norm by the clip constant. -/
lemma l2norm_clip_le (g : List ℝ) (c : ℝ) (hc : 0 ≤ c) : l2norm (clip_by_norm g c) ≤ c := by
  unfold clip_by_norm
  split
  · assumption
  · rename_i h
    push_neg at h
    have hN : 0 < l2norm g := lt_of_le_of_lt hc h
    rw [l2norm_map_mul, abs_of_nonneg (div_nonneg hc hN.le), div_mul_cancel₀ c hN.ne.symm]

/-- C6: optimizer gradient handling.  Every defined gradient is replaced by
its norm-5 clipping before being handed to the (abstracted) Adam update;
every absent gradient leaves its variable untouched and contributes exactly
one warning naming the variable; the processing is total, and clipping
bounds the gradient norm by 5. -/
theorem claim_C6_gradient_handling (upd : List ℝ → List ℝ → List ℝ)
    (gvs : List (Option (List ℝ) × String × List ℝ)) :
    apply_gradients upd (processGrads gvs).1 =
      gvs.map (fun gv =>
        match gv.1 with
        | some g => upd gv.2.2 (clip_by_norm g 5)
        | none => gv.2.2)
    ∧ (processGrads gvs).2 =
        gvs.filterMap (fun gv =>
          match gv.1 with
          | none => some ("WARNING NO GRAD FOR VAR: " ++ gv.2.1)
          | some _ => none)
    ∧ ∀ g : List ℝ, l2norm (clip_by_norm g 5) ≤ 5 := by
  refine ⟨?_, ?_, fun g => l2norm_clip_le g 5 (by norm_num)⟩
  · induction gvs with
    | nil => rfl
    | cons hd tl ih =>
      obtain ⟨og, v⟩ := hd
      cases og <;> simp [processGrads, apply_gradients, List.map] at ih ⊢ <;> exact ih
  · induction gvs with
    | nil => rfl
    | cons hd tl ih =>
      obtain ⟨og, v⟩ := hd
      cases og <;> simp [processGrads, List.filterMap] at ih ⊢ <;> exact ih

/-- A convolution whose kernel and bias are identically zero produces a
tensor whose every entry is zero, whatever its input. -/
lemma conv_zeroP_data (x : Tensor) (nf fd sc : ℕ) (ix : List ℕ) :
    (conv x zeroConvParams nf fd sc).data ix = 0 := by
  simp [conv, zeroConvParams]

/-- In the zero-init scenario, mu at t = 0 is the zero-parameter conv of the
(zero) encoder output. -/
lemma zs_mu_eq :
    (unroll smallCfg zeroDrawParams zCells x0 e0 0).mu
      = conv (Tensor.zeros [1, 2, 2, 3]) zeroConvParams 1 5 1 := rfl

/-- In the zero-init scenario, logsigma at t = 0 is the same zero-parameter
conv. -/
lemma zs_logsigma_eq :
    (unroll smallCfg zeroDrawParams zCells x0 e0 0).logsigma
      = conv (Tensor.zeros [1, 2, 2, 3]) zeroConvParams 1 5 1 := rfl

/-- In the zero-init scenario, sigma at t = 0 is exp applied to logsigma. -/
lemma zs_sigma_eq :
    (unroll smallCfg zeroDrawParams zCells x0 e0 0).sigma
      = Tensor.map Real.exp (conv (Tensor.zeros [1, 2, 2, 3]) zeroConvParams 1 5 1) := rfl

/-- Shape of the latent-parameter tensors of the scenario. -/
lemma conv_zeros3_shape :
    (conv (Tensor.zeros [1, 2, 2, 3]) zeroConvParams 1 5 1).shape = [1, 2, 2, 1] := rfl

/-- mu vanishes identically in the zero-init scenario. -/
lemma zs_mu_data (ix : List ℕ) :
    ((unroll smallCfg zeroDrawParams zCells x0 e0 0).mu).data ix = 0 := by
  rw [zs_mu_eq]
  exact conv_zeroP_data _ 1 5 1 ix

/-- logsigma vanishes identically in the zero-init scenario. -/
lemma zs_logsigma_data (ix : List ℕ) :
    ((unroll smallCfg zeroDrawParams zCells x0 e0 0).logsigma).data ix = 0 := by
  rw [zs_logsigma_eq]
  exact conv_zeroP_data _ 1 5 1 ix

/-- sigma is identically one in the zero-init scenario: exp of zero. -/
lemma zs_sigma_data (ix : List ℕ) :
    ((unroll smallCfg zeroDrawParams zCells x0 e0 0).sigma).data ix = 1 := by
  rw [zs_sigma_eq]
  simp [Tensor.map, conv_zeroP_data, Real.exp_zero]

/-- Canvas at t = 0 of the zero-init scenario, unfolded once. -/
lemma zs_canvas_eq :
    (unroll smallCfg zeroDrawParams zCells x0 e0 0).canvas
      = (Tensor.zeros [1, 4, 4, 2]).add
          (depthToSpace2 (conv (Tensor.zeros [1, 2, 2, 4]) zeroConvParams 8 5 1)) := rfl

/-- Canvas at t = 0 of the zero-init scenario has the full canvas shape. -/
lemma zs_canvas_shape :
    ((unroll smallCfg zeroDrawParams zCells x0 e0 0).canvas).shape = [1, 4, 4, 2] := rfl

/-- Canvas at t = 0 of the zero-init scenario vanishes identically. -/
lemma zs_canvas_data (ix : List ℕ) :
    ((unroll smallCfg zeroDrawParams zCells x0 e0 0).canvas).data ix = 0 := by
  rw [zs_canvas_eq]
  simp [Tensor.add, Tensor.map2, Tensor.zeros, depthToSpace2, Tensor.get4, conv_zeroP_data]

/-- Every entry of the t = 0 kl tensor of the zero-init scenario equals
one half: each entry is 0.5 * (sum over the height axis of mu^2 + sigma^2
- 2 logsigma = 1) - 0.5 = 0.5 * 2 - 0.5. -/
lemma zs_kl_data (ix : List ℕ) :
    (kl_term (unroll smallCfg zeroDrawParams zCells x0 e0 0).mu
      (unroll smallCfg zeroDrawParams zCells x0 e0 0).sigma
      (unroll smallCfg zeroDrawParams zCells x0 e0 0).logsigma).data ix = 1 / 2 := by
  rw [zs_mu_eq, zs_sigma_eq, zs_logsigma_eq]
  simp [kl_term, Tensor.addScalar, Tensor.scale, reduceSumAxis1, Tensor.sub, Tensor.add,
    Tensor.mul, Tensor.map2, Tensor.map, Tensor.get4, Tensor.dim, conv_zeros3_shape,
    conv_zeroP_data, Real.exp_zero]
  norm_num

/-- Shape of the t = 0 kl tensor of the zero-init scenario: the reduction
is over axis 1 (height), so batch, width and channel axes remain. -/
lemma zs_kl_shape :
    (kl_term (unroll smallCfg zeroDrawParams zCells x0 e0 0).mu
      (unroll smallCfg zeroDrawParams zCells x0 e0 0).sigma
      (unroll smallCfg zeroDrawParams zCells x0 e0 0).logsigma).shape = [1, 2, 1] := rfl

/-- Lz of the zero-init scenario equals one half. -/
lemma zs_Lz : LzOf smallCfg zeroDrawParams zCells x0 e0 = 1 / 2 := by
  have h1 : LzOf smallCfg zeroDrawParams zCells x0 e0
      = reduceMeanAll (kl_term (unroll smallCfg zeroDrawParams zCells x0 e0 0).mu
          (unroll smallCfg zeroDrawParams zCells x0 e0 0).sigma
          (unroll smallCfg zeroDrawParams zCells x0 e0 0).logsigma) := rfl
  have hAll : allIndices [1, 2, 1] = [[0, 0, 0], [0, 1, 0]] := by decide
  rw [h1]
  unfold reduceMeanAll
  rw [zs_kl_shape, hAll]
  simp [zs_kl_data]

/-- Lx of the zero-init scenario: sixteen pixels each contribute half of
log(2 pi). -/
lemma zs_Lx : LxOf smallCfg zeroDrawParams zCells x0 e0 = 8 * Real.log (2 * Real.pi) := by
  have h1 : LxOf smallCfg zeroDrawParams zCells x0 e0
      = (∑ b ∈ Finset.range 1, ∑ i ∈ Finset.range 4, ∑ j ∈ Finset.range 4,
          ∑ k ∈ Finset.range 1,
            -(log_normal2 (x0.data [b, i, j, k])
                (((unroll smallCfg zeroDrawParams zCells x0 e0 0).canvas).data [b, i, j, k])
                (((unroll smallCfg zeroDrawParams zCells x0 e0 0).canvas).data [b, i, j, 1 + k])
                1e-5))
        / ((1 : ℕ) : ℝ) := rfl
  have hval : log_normal2 0 0 0 1e-5 = -(0.5 * Real.log (2 * Real.pi)) := by
    unfold log_normal2
    norm_num
  have hx : ∀ b i j k : ℕ, x0.data [b, i, j, k] = (0 : ℝ) := fun _ _ _ _ => rfl
  rw [h1]
  simp only [hx, zs_canvas_data, hval, neg_neg]
  simp [Finset.sum_const, Finset.card_range]
  ring

/-- C3 evidence: the kl reduction of the script at the zero-init scenario.  The
timestep-0 kl tensor has shape (batch, B/2, n_chan_z) = [1, 2, 1] rather
than one scalar per batch element, and Lz evaluates to 1/2 (the claimed
per-batch channel sum 0.5*(0 + 1 - 0) - 0.5 = 0 would make Lz = 0). -/
theorem claim_C3_kl_reduction_axis :
    LzOf smallCfg zeroDrawParams zCells x0 e0 = 1 / 2
    ∧ (kl_term (unroll smallCfg zeroDrawParams zCells x0 e0 0).mu
        (unroll smallCfg zeroDrawParams zCells x0 e0 0).sigma
        (unroll smallCfg zeroDrawParams zCells x0 e0 0).logsigma).shape = [1, 2, 1]
    ∧ (kl_term (unroll smallCfg zeroDrawParams zCells x0 e0 0).mu
        (unroll smallCfg zeroDrawParams zCells x0 e0 0).sigma
        (unroll smallCfg zeroDrawParams zCells x0 e0 0).logsigma).shape
          ≠ [smallCfg.batch_size] :=
  ⟨zs_Lz, rfl, by decide⟩

/-- C4: the reconstruction term.  Lx is the batch mean of the per-example
sum over the spatial and channel axes of the negated Gaussian log-density
with eps = 1e-5, evaluated at the two channel halves of the final canvas. -/
theorem claim_C4_reconstruction {Se Sd : Type} (cfg : DrawConfig) (p : DrawParams)
    (cells : Cells Se Sd) (x e : Tensor) :
    LxOf cfg p cells x e =
      (∑ b ∈ Finset.range (x.dim 0), ∑ i ∈ Finset.range (x.dim 1),
        ∑ j ∈ Finset.range (x.dim 2), ∑ k ∈ Finset.range (x.dim 3),
          -( -0.5 * Real.log (2 * Real.pi)
             - ((splitHalf (canvasFinal cfg p cells x e)).2).get4 b i j k / 2
             - (x.get4 b i j k - ((splitHalf (canvasFinal cfg p cells x e)).1).get4 b i j k) ^ 2
               / (2 * Real.exp (((splitHalf (canvasFinal cfg p cells x e)).2).get4 b i j k)
                   + 1e-5)))
        / ((x.dim 0 : ℕ) : ℝ) := rfl

/-- C8 counterexample: at the zero-init scenario the Lz of the code is not the
claimed -0.5 (it is 1/2: sigma = exp(0) = 1, not 0). -/
theorem claim_C8_zero_init_cex :
    ¬ (LzOf smallCfg zeroDrawParams zCells x0 e0 = -(1 / 2)) := by
  rw [zs_Lz]
  norm_num

/-- C8 (amended): in the zero-init scenario canvas[0] is all zeros with the
full canvas shape, Lx is the finite value 8 log(2 pi), Lz is the finite
value 1/2, and at t = 0 mu = logsigma = 0 while sigma = exp(0) = 1. -/
theorem claim_C8_zero_init_amended :
    ((unroll smallCfg zeroDrawParams zCells x0 e0 0).canvas).shape = [1, 4, 4, 2]
    ∧ (∀ ix, ((unroll smallCfg zeroDrawParams zCells x0 e0 0).canvas).data ix = 0)
    ∧ LxOf smallCfg zeroDrawParams zCells x0 e0 = 8 * Real.log (2 * Real.pi)
    ∧ LzOf smallCfg zeroDrawParams zCells x0 e0 = 1 / 2
    ∧ (∀ ix, ((unroll smallCfg zeroDrawParams zCells x0 e0 0).mu).data ix = 0)
    ∧ (∀ ix, ((unroll smallCfg zeroDrawParams zCells x0 e0 0).logsigma).data ix = 0)
    ∧ (∀ ix, ((unroll smallCfg zeroDrawParams zCells x0 e0 0).sigma).data ix = 1) :=
  ⟨rfl, zs_canvas_data, zs_Lx, zs_Lz, zs_mu_data, zs_logsigma_data, zs_sigma_data⟩

/-- The write head restores the full canvas shape from a half-resolution
decoder output: conv to n_chan_r*4 channels, then depth-to-space 2. -/
lemma write_shape (cfg : DrawConfig) (p : DrawParams) (h_dec : Tensor) (n a b k : ℕ)
    (h : h_dec.shape = [n, a, b, k]) :
    (write cfg p h_dec).shape = [n, 2 * a, 2 * b, n_chan_r cfg] := by
  have h4 : n_chan_r cfg * 4 / 4 = n_chan_r cfg := by omega
  unfold write depthToSpace2
  simp [conv, Tensor.dim, h, convOutDim, h4]

/-- The canvas keeps the shape of the initial zero canvas at every step,
because addition carries the running canvas shape. -/
lemma unroll_canvas_shape {Se Sd : Type} (cfg : DrawConfig) (p : DrawParams)
    (cells : Cells Se Sd) (x e : Tensor) :
    ∀ t, ((unroll cfg p cells x e t).canvas).shape
      = [cfg.batch_size, cfg.A, cfg.B, n_chan_r cfg]
  | 0 => rfl
  | Nat.succ t => unroll_canvas_shape cfg p cells x e t

/-- C9: canvas shape invariant.  When the decoder cell emits half-resolution
feature maps, every canvas (and every write-head output) has shape
(batch_size, A, B, 2*n_chan_x), and the canvas residual consumed at t = 0
is the all-zero tensor of that shape. -/
theorem claim_C9_canvas_shape {Se Sd : Type} (cfg : DrawConfig) (p : DrawParams)
    (cells : Cells Se Sd) (x e : Tensor) (a b : ℕ)
    (hA : cfg.A = 2 * a) (hB : cfg.B = 2 * b)
    (hdec : ∀ inp st, ((cells.lstm_dec inp st).1).shape = [cfg.batch_size, a, b, cfg.n_chan_hd]) :
    (∀ t, ((unroll cfg p cells x e t).canvas).shape
        = [cfg.batch_size, cfg.A, cfg.B, 2 * cfg.n_chan_x]
      ∧ (write cfg p ((unroll cfg p cells x e t).h_dec)).shape
          = [cfg.batch_size, cfg.A, cfg.B, 2 * cfg.n_chan_x])
    ∧ (unroll cfg p cells x e 0).r_prev
        = Tensor.zeros [cfg.batch_size, cfg.A, cfg.B, 2 * cfg.n_chan_x] := by
  have hnr : n_chan_r cfg = 2 * cfg.n_chan_x := Nat.mul_comm _ _
  refine ⟨fun t => ⟨?_, ?_⟩, ?_⟩
  · rw [← hnr]
    exact unroll_canvas_shape cfg p cells x e t
  · have hd : ((unroll cfg p cells x e t).h_dec).shape = [cfg.batch_size, a, b, cfg.n_chan_hd] := by
      cases t <;> exact hdec _ _
    rw [← hnr, hA, hB]
    exact write_shape cfg p _ _ _ _ _ hd
  · rw [← hnr]
    rfl

/-- Witness for C9 at the concrete zero-init scenario. -/
theorem claim_C9_witness :
    ((unroll smallCfg zeroDrawParams zCells x0 e0 1).canvas).shape = [1, 4, 4, 2]
    ∧ (unroll smallCfg zeroDrawParams zCells x0 e0 0).r_prev = Tensor.zeros [1, 4, 4, 2] := by
  have h := claim_C9_canvas_shape smallCfg zeroDrawParams zCells x0 e0 2 2 rfl rfl
    (fun _ _ => rfl)
  exact ⟨(h.1 1).1, h.2⟩

end
